import Mathlib

/-!
Verification of the medication-reminder scheduling and dispatch mechanism
(`src/main.py`) against its natural-language specification.

The embedding below translates, from the source:
  * the time normalizer inside `schedule_reminder` (the
    `datetime.strptime(t.strip(), "%I:%M %p").strftime("%H:%M:%S")` attempt
    with the bare-`except` fallback to the raw string);
  * the registration loop of `schedule_reminder`, including the `schedule`
    library's validation of daily trigger keys in `Job.at` (regex
    `^[0-2]\d:[0-5]\d(:[0-5]\d)?$` plus the 0..23 hour check, raising
    `ScheduleValueError` otherwise) — `schedule.every().day.at(t_24)` is the
    call `schedule_reminder` makes for every entry;
  * the dispatch loop `run_schedule` over `schedule.run_pending` (neither of
    which catches exceptions raised by a job's callback);
  * the notification sender `send_whatsapp` with its `try/except` containment
    and its raw f-string payload construction.

Strings are Lean `String`s (sequences of unicode scalar values, as Python
strings are); the whitespace and digit classes involved are the ASCII ones.
-/

namespace HealthCareReminder

/-- ASCII whitespace, as stripped by Python's `str.strip()` and matched by the
regex class `\s` on the inputs in question. -/
def pySpace (c : Char) : Bool :=
  c == ' ' || c == '\t' || c == '\n' || c == '\r' || c == '\x0b' || c == '\x0c'

/-- Python `str.strip()`: drop leading and trailing whitespace. -/
def pyStrip (cs : List Char) : List Char :=
  ((cs.dropWhile pySpace).reverse.dropWhile pySpace).reverse

/-- Is `c` an ASCII digit (regex `\d`)? -/
def isDig (c : Char) : Bool := 48 ≤ c.toNat && c.toNat ≤ 57

/-- Numeric value of an ASCII digit. -/
def digVal (c : Char) : Nat := c.toNat - 48

/-- Tests `lo ≤ c ≤ hi` on code points. -/
def between (lo hi : Nat) (c : Char) : Bool := lo ≤ c.toNat && c.toNat ≤ hi

/-- The `%I` directive of `datetime.strptime`: regex `1[0-2]|0[1-9]|[1-9]`,
alternatives tried left to right, returning the matched hour (1..12) and the
rest of the input.  (Backtracking into a shorter alternative never helps here,
because the following format character is `:` and no alternative's trailing
character can be `:`.) -/
def parseHour12 : List Char → Option (Nat × List Char)
  | a :: b :: rest =>
      if a == '1' && between 48 50 b then some (10 + digVal b, rest)
      else if a == '0' && between 49 57 b then some (digVal b, rest)
      else if between 49 57 a then some (digVal a, b :: rest)
      else none
  | [a] => if between 49 57 a then some (digVal a, []) else none
  | [] => none

/-- The `%M` directive of `datetime.strptime`: regex `[0-5]\d|\d`. -/
def parseMin : List Char → Option (Nat × List Char)
  | a :: b :: rest =>
      if between 48 53 a && isDig b then some (10 * digVal a + digVal b, rest)
      else if isDig a then some (digVal a, b :: rest)
      else none
  | [a] => if isDig a then some (digVal a, []) else none
  | [] => none

/-- The whitespace of the format string, compiled by `_strptime` to `\s+`:
at least one whitespace character, consumed greedily. -/
def parseSpaces1 : List Char → Option (List Char)
  | c :: rest => if pySpace c then some (rest.dropWhile pySpace) else none
  | [] => none

/-- The `%p` directive in the C locale with `re.IGNORECASE`: `am|pm`
case-insensitively; `true` means PM. -/
def parseAmPm : List Char → Option (Bool × List Char)
  | a :: b :: rest =>
      if (a == 'A' || a == 'a') && (b == 'M' || b == 'm') then some (false, rest)
      else if (a == 'P' || a == 'p') && (b == 'M' || b == 'm') then some (true, rest)
      else none
  | _ => none

/-- Python `_strptime`'s 12-hour to 24-hour conversion for `%I` with `%p`:
AM maps 12 to 0; PM maps h ≠ 12 to h + 12. -/
def to24 (h : Nat) (pm : Bool) : Nat :=
  if pm then (if h == 12 then 12 else h + 12) else (if h == 12 then 0 else h)

/-- Runs `datetime.strptime(s, "%I:%M %p")` on an already-stripped character list:
the directives in sequence, with the whole input consumed (`strptime` raises
`ValueError` on "unconverted data remains").  Returns `(hour24, minute)`. -/
def parse12 (cs : List Char) : Option (Nat × Nat) :=
  match parseHour12 cs with
  | none => none
  | some (h, r1) =>
    match r1 with
    | [] => none
    | c :: r2 =>
      if c = ':' then
        match parseMin r2 with
        | none => none
        | some (m, r3) =>
          match parseSpaces1 r3 with
          | none => none
          | some r4 =>
            match parseAmPm r4 with
            | none => none
            | some (pm, r5) => if r5.isEmpty then some (to24 h pm, m) else none
      else none

/-- Zero-padded two-digit decimal rendering, as `strftime`'s `%H`/`%M`/`%S`
produce for values below 100. -/
def pad2 (n : Nat) : List Char :=
  if n < 10 then ['0', Char.ofNat (48 + n)]
  else [Char.ofNat (48 + n / 10), Char.ofNat (48 + n % 10)]

/-- Applies `strftime("%H:%M:%S")` for the parsed hour and minute; `strptime` without
`%S` leaves seconds at 0, so the seconds field is `00`. -/
def fmtHMS (h m : Nat) : String :=
  String.mk (pad2 h ++ ':' :: pad2 m ++ ':' :: pad2 0)

/-- The time normalizer of `schedule_reminder`'s loop body:
`try: t_24 = datetime.strptime(t.strip(), "%I:%M %p").strftime("%H:%M:%S")`
`except: t_24 = t` — on any parse failure the original raw string (not the
stripped copy) is the result. -/
def normalize (t : String) : String :=
  match parse12 (pyStrip t.data) with
  | some (h, m) => fmtHMS h m
  | none => t

/-- Unpadded decimal rendering of a number, for writing 12-hour inputs the
way the spec's examples do (`"9:05 AM"`, `"10:30 PM"`). -/
def natChars (n : Nat) : List Char := (Nat.repr n).data

/-- A well-formed 12-hour input `h:mm AM/PM`: hour written unpadded or
zero-padded (`pad`), minutes zero-padded, `PM` when `pm`. -/
def render12 (h m : Nat) (pad pm : Bool) : String :=
  String.mk ((if pad then pad2 h else natChars h) ++ ':' :: pad2 m ++ ' ' ::
    (if pm then ['P', 'M'] else ['A', 'M']))

/-- A string of form `HH:MM:SS` (three colon-separated two-digit groups).
Such strings never contain whitespace, so the 12-hour parse always fails on
them and the normalizer passes them through. -/
def isHHMMSS (s : String) : Bool :=
  match s.data with
  | [a, b, c, d, e, f, g, h] =>
      isDig a && isDig b && c == ':' && isDig d && isDig e && f == ':' &&
        isDig g && isDig h
  | _ => false

/-- One registered daily trigger: the `schedule` job created by
`schedule.every().day.at(t_24).do(job, t=t)`, carrying the key it is
scheduled at, and the `phone`, `medicine` and original label `t` that the
`job` closure is bound to. -/
structure Trigger where
  time_of_day : String
  phone : String
  medicine : String
  original_label : String
deriving DecidableEq, Repr

/-- The `schedule` library's validation of the time string in `Job.at` for a
daily job: the string must match `^[0-2]\d:[0-5]\d(:[0-5]\d)?$` and its hour
must be at most 23; otherwise `at` raises `ScheduleValueError`.  (After these
checks the construction of the `datetime.time` always succeeds.) -/
def atAccepts (cs : List Char) : Bool :=
  match cs with
  | [a, b, ':', c, d] =>
      between 48 50 a && isDig b && between 48 53 c && isDig d &&
        decide (10 * digVal a + digVal b ≤ 23)
  | [a, b, ':', c, d, ':', e, f] =>
      between 48 50 a && isDig b && between 48 53 c && isDig d &&
        between 48 53 e && isDig f && decide (10 * digVal a + digVal b ≤ 23)
  | _ => false

/-- The message of the `ScheduleValueError` raised by `Job.at` for a daily
job with an invalid time string. -/
def scheduleValueError : String :=
  "Invalid time format for a daily job (valid format is HH:MM(:SS)?)"

/-- The trigger created for entry `t` of a `schedule_reminder(phone,
medicine, times)` call: keyed by the normalized time, with `t` itself bound
as the job's `t=t` keyword argument. -/
def mkTrigger (phone medicine t : String) : Trigger :=
  { time_of_day := normalize t, phone := phone, medicine := medicine,
    original_label := t }

/-- The `for t in times` loop of `schedule_reminder`: each entry is
normalized and handed to `schedule.every().day.at(t_24).do(job, t=t)`, which
appends one job to the scheduler's (process-wide) job list, or raises.  An
`error` result carries the registry as it stands when the exception escapes:
jobs appended by earlier iterations remain registered. -/
def scheduleLoop (phone medicine : String) :
    List String → List Trigger → Except (List Trigger × String) (List Trigger)
  | [], reg => .ok reg
  | t :: rest, reg =>
      if atAccepts (normalize t).data then
        scheduleLoop phone medicine rest (reg ++ [mkTrigger phone medicine t])
      else
        .error (reg, scheduleValueError)

/-- The single-quote character, written by code point to keep it out of
character-literal syntax. -/
def squote : Char := Char.ofNat 39

/-- Lower-case hexadecimal digit. -/
def hexDig (n : Nat) : Char :=
  if n < 10 then Char.ofNat (48 + n) else Char.ofNat (87 + n)

/-- Python `repr`'s rendering of one character of a string quoted with `q`:
backslash and the active quote are backslash-escaped; `\n`, `\r` and `\t`
use their mnemonic escapes; other non-printable ASCII characters (code
below 32, or 127) become `\xNN`; everything else passes through.
(Non-printable characters above ASCII, which Python would likewise escape,
do not occur in the strings this development evaluates.) -/
def pyEscChar (q c : Char) : List Char :=
  if c = '\\' then ['\\', '\\']
  else if c = q then ['\\', q]
  else if c = '\n' then ['\\', 'n']
  else if c = '\r' then ['\\', 'r']
  else if c = '\t' then ['\\', 't']
  else if c.toNat < 32 || c.toNat == 127 then
    ['\\', 'x', hexDig (c.toNat / 16), hexDig (c.toNat % 16)]
  else [c]

/-- Python `repr`'s escaping applied to every character of the string. -/
def pyEscList (q : Char) : List Char → List Char
  | [] => []
  | c :: rest => pyEscChar q c ++ pyEscList q rest

/-- Quote character Python `repr` chooses for a string: single quote by
default, double quote when the string contains a single quote but no double
quote. -/
def pyQuote (s : String) : Char :=
  if s.data.contains squote && !(s.data.contains '"') then '"' else squote

/-- Python's `repr` of a string — quote choice, character escaping, quote
wrapping — as each element of `times` appears when the list is interpolated
into the confirmation f-string. -/
def pyRepr (s : String) : String :=
  String.mk (pyQuote s :: pyEscList (pyQuote s) s.data ++ [pyQuote s])

/-- Holds when Python `repr` renders the character as itself under the
default single-quote choice: printable ASCII other than backslash and the
single quote. -/
def reprPlain (c : Char) : Bool :=
  c != '\\' && c != squote && 32 ≤ c.toNat && c.toNat ≤ 126

/-- Concatenation (`", ".join`) of the `repr`s of the elements: how Python renders
`{times}` inside the confirmation f-string, between the brackets. -/
def joinRepr : List String → String
  | [] => ""
  | [x] => pyRepr x
  | x :: xs => pyRepr x ++ ", " ++ joinRepr xs

/-- Python's rendering of a list of (plain) strings. -/
def pyListRepr (xs : List String) : String := "[" ++ joinRepr xs ++ "]"

/-- The confirmation string `schedule_reminder` returns:
`f"✅ Reminders for {medicine} scheduled at {times} for {phone}"`. -/
def confirmMsg (phone medicine : String) (times : List String) : String :=
  "✅ Reminders for " ++ medicine ++ " scheduled at " ++ pyListRepr times ++
    " for " ++ phone

/-- The tool `schedule_reminder(phone, medicine, times)` acting on the scheduler's job
list `reg`: runs the registration loop, then returns the confirmation
string; an uncaught `ScheduleValueError` from `Job.at` propagates to the
caller (`error`), with the partially extended registry. -/
def schedule_reminder (phone medicine : String) (times : List String)
    (reg : List Trigger) :
    Except (List Trigger × String) (List Trigger × String) :=
  match scheduleLoop phone medicine times reg with
  | .ok reg2 => .ok (reg2, confirmMsg phone medicine times)
  | .error e => .error e

/-- A scheduler job as the dispatch loop sees it in one poll cycle: whether
`job.should_run` holds now, and what its callback does when invoked —
returning normally or raising (with a message). -/
structure SJob where
  due : Bool
  callback : Except String Unit
deriving Repr

/-- Body of `schedule.run_pending()`: run every due job, in order.  Neither
`run_pending` nor `Job.run` catches exceptions from the job's function, so a
raising callback aborts the traversal: the `error` result carries how many
jobs had fired before the raise, and the remaining due jobs do not run.  The
`ok` result counts the jobs fired this cycle. -/
def runPendingAux : List SJob → Nat → Except (Nat × String) Nat
  | [], fired => .ok fired
  | j :: rest, fired =>
      if j.due then
        match j.callback with
        | .ok _ => runPendingAux rest (fired + 1)
        | .error e => .error (fired, e)
      else runPendingAux rest fired

/-- Runs `schedule.run_pending()` on the job list of one poll cycle. -/
def runPending (jobs : List SJob) : Except (Nat × String) Nat :=
  runPendingAux jobs 0

/-- The dispatch loop `run_schedule` (`while True: schedule.run_pending();
time.sleep(1)`), observed for `fuel` poll cycles starting at cycle `i`;
`cycles k` gives the job list with its due-flags at cycle `k` (the wall
clock decides due-ness).  The loop body has no exception handling, so an
exception from `run_pending` escapes the `while` and terminates the loop's
thread: the result records the cycle at which the loop died and how many
jobs of that cycle had fired; no later cycle runs. -/
def runScheduleFrom (cycles : Nat → List SJob) (i : Nat) :
    Nat → Except (Nat × Nat × String) Unit
  | 0 => .ok ()
  | fuel + 1 =>
      match runPending (cycles i) with
      | .ok _ => runScheduleFrom cycles (i + 1) fuel
      | .error (fired, msg) => .error (i, fired, msg)

/-- The `WhatsAppRequest` schema: destination phone and message body. -/
structure WhatsAppRequest where
  phone : String
  message : String
deriving DecidableEq, Repr

/-- The message body built by `job`:
`f"💊 Reminder: It's time to take your medicine '{medicine}' at {t}"`,
where `t` is the original (non-normalized) time label. -/
def reminderMessage (medicine t : String) : String :=
  "💊 Reminder: It's time to take your medicine '" ++ medicine ++ "' at " ++ t

/-- The body of `job(phone, medicine, t)`: the sequence of `send_whatsapp`
calls it issues — exactly one, with the bound phone and the reminder
message. -/
def jobRequests (phone medicine t : String) : List WhatsAppRequest :=
  [⟨phone, reminderMessage medicine t⟩]

/-- The requests issued when a registered trigger fires: `job` runs with the
trigger's bound phone, medicine and original label. -/
def fireRequests (trig : Trigger) : List WhatsAppRequest :=
  jobRequests trig.phone trig.medicine trig.original_label

/-- What `requests.post` yields for one call, from the sender's point of
view: an HTTP response (status code and body text), or a raised
transport-level exception with its message. -/
inductive HttpResult where
  | response (status : Nat) (text : String)
  | exn (msg : String)
deriving DecidableEq, Repr

/-- The spec's DispatchOutcome: whether the send succeeded, and the detail
string (`send_whatsapp`'s returned `"status"` value). -/
structure DispatchOutcome where
  succeeded : Bool
  detail : String
deriving DecidableEq, Repr

/-- The call `requests.post(...)` inside the `try` block: returns the response or
raises. -/
def requests_post (gateway : HttpResult) : Except String (Nat × String) :=
  match gateway with
  | .response st tx => .ok (st, tx)
  | .exn m => .error m

/-- The sender `send_whatsapp`: posts to the gateway inside `try`; on status 200
returns the success status, on any other status returns the failure status
with the response text, and the `except Exception` clause converts any raised
exception into the error status.  `succeeded` records which branch built the
returned status string.  The outer `Except` is the function's own exception
behavior: an `error` result would mean `send_whatsapp` itself raised. -/
def send_whatsapp (gateway : HttpResult) : Except String DispatchOutcome :=
  match requests_post gateway with
  | .ok (st, tx) =>
      if st == 200 then .ok ⟨true, "✅ WhatsApp message sent!"⟩
      else .ok ⟨false, "❌ Failed: " ++ tx⟩
  | .error e => .ok ⟨false, "❌ Error: " ++ e⟩

/-- Control behavior of `job`, given the gateway's reaction to its single
send: it raises exactly when `send_whatsapp` raises. -/
def jobBehavior (gateway : HttpResult) : Except String Unit :=
  match send_whatsapp gateway with
  | .ok _ => .ok ()
  | .error e => .error e

/-- The scheduler job a registered trigger presents to one poll cycle whose
wall clock reads `now`: `job.should_run` holds exactly when the cycle's
clock matches the trigger's scheduled time of day, and the callback behaves
as `job` does given the gateway's reaction `g`. -/
def triggerJob (now : String) (g : HttpResult) (trig : Trigger) : SJob :=
  { due := trig.time_of_day == now, callback := jobBehavior g }

/-- The request body built by `send_whatsapp`:
`f"token={TOKEN}&to={data.phone}&body={data.message}"` — raw string
interpolation, no URL/form escaping.  (The subsequent
`.encode("utf8").decode("iso-8859-1")` step re-reads the UTF-8 bytes as
latin-1 characters; on the wire the bytes are exactly the UTF-8 encoding of
this string.) -/
def buildPayload (token phone message : String) : String :=
  "token=" ++ token ++ "&to=" ++ phone ++ "&body=" ++ message

/-- Split a character list at every occurrence of `sep` (Python
`str.split(sep)`): `n` separators yield `n + 1` fields. -/
def splitOnChar (sep : Char) : List Char → List (List Char)
  | [] => [[]]
  | c :: rest =>
      if c = sep then [] :: splitOnChar sep rest
      else
        match splitOnChar sep rest with
        | [] => [[c]]
        | f :: fs => (c :: f) :: fs

/-- Split a field at its first `=` into key and value; a field without `=`
has an empty value. -/
def splitFirstEq : List Char → List Char × List Char
  | [] => ([], [])
  | c :: rest =>
      if c = '=' then ([], rest)
      else
        let p := splitFirstEq rest
        (c :: p.1, p.2)

/-- Modelled from the spec: the messaging gateway boundary accepts a
form-encoded body with `token`, `to` and `body` fields.  Standard
`application/x-www-form-urlencoded` parsing of such a body splits it on `&`
into fields and each field at its first `=` into key and value. -/
def parseForm (body : String) : List (String × String) :=
  (splitOnChar '&' body.data).map fun f =>
    (String.mk (splitFirstEq f).1, String.mk (splitFirstEq f).2)

/-- Holds when `small` occurs as a contiguous substring of `big`. -/
def containsSub (big small : String) : Prop := small.data <:+: big.data

instance (big small : String) : Decidable (containsSub big small) :=
  inferInstanceAs (Decidable (small.data <:+: big.data))

/-- Holds when the string contains no `&`, so that interpolating it into the
form body cannot add field boundaries. -/
def noAmp (s : String) : Bool := s.data.all fun c => c != '&'

/-- Occurrences of the field separator in a string. -/
def countAmp (s : String) : Nat := s.data.count '&'

/-- A poll-cycle fixture for the dispatch loop: every cycle has two due
triggers, the first with a callback that raises `"boom"`, the second with a
callback that returns normally. -/
def poisonCycles : Nat → List SJob :=
  fun _ => [⟨true, .error "boom"⟩, ⟨true, .ok ()⟩]

/-! ## Helper lemmas -/

theorem toNat_le_of_pySpace {c : Char} (hc : pySpace c = true) : c.toNat ≤ 32 := by
  simp only [pySpace, Bool.or_eq_true, beq_iff_eq] at hc
  rcases hc with ((((rfl | rfl) | rfl) | rfl) | rfl) | rfl <;> decide

theorem not_space_of_digit {c : Char} (hc : isDig c = true) : pySpace c = false := by
  cases hps : pySpace c
  · rfl
  · exfalso
    have h1 := toNat_le_of_pySpace hps
    simp only [isDig, Bool.and_eq_true, decide_eq_true_eq] at hc
    omega

theorem digit_ne_colon {c : Char} (hc : isDig c = true) : c ≠ ':' := by
  rintro rfl
  exact absurd hc (by decide)

/-- Strings of `HH:MM:SS` shape contain no whitespace, so the `\s+` of the
12-hour format can never match inside them: the parse fails. -/
theorem parse12_hhmmss_none (a b d e g h : Char) (ha : isDig a = true)
    (hb : isDig b = true) (hd : isDig d = true) (he : isDig e = true)
    (hg : isDig g = true) (hh : isDig h = true) :
    parse12 [a, b, ':', d, e, ':', g, h] = none := by
  have hbc := digit_ne_colon hb
  have hdsp := not_space_of_digit hd
  have hesp := not_space_of_digit he
  have hcolsp : pySpace ':' = false := by decide
  unfold parse12 parseHour12
  by_cases c1 : (a == '1' && between 48 50 b) = true
  · simp only [c1, if_true]
    unfold parseMin
    by_cases c2 : (between 48 53 d && isDig e) = true
    · simp [c2, parseSpaces1, hcolsp]
    · simp [c2, hd, parseSpaces1, hesp]
  · by_cases c2 : (a == '0' && between 49 57 b) = true
    · simp only [c1, if_false, c2, if_true, Bool.false_eq_true]
      unfold parseMin
      by_cases c3 : (between 48 53 d && isDig e) = true
      · simp [c3, parseSpaces1, hcolsp]
      · simp [c3, hd, parseSpaces1, hesp]
    · by_cases c4 : between 49 57 a = true
      · simp [c1, c2, c4, hbc]
      · simp [c1, c2, c4]

theorem pyStrip_hhmmss (a b d e g h : Char) (ha : isDig a = true)
    (hh : isDig h = true) :
    pyStrip [a, b, ':', d, e, ':', g, h] = [a, b, ':', d, e, ':', g, h] := by
  have h1 := not_space_of_digit ha
  have h2 := not_space_of_digit hh
  simp [pyStrip, List.dropWhile, h1, h2]

/-- The registration loop on entries the registry's key validation accepts:
one new trigger per entry, in input order, appended after the existing jobs. -/
theorem scheduleLoop_ok (phone medicine : String) :
    ∀ (times : List String) (reg : List Trigger),
      (∀ t ∈ times, atAccepts (normalize t).data = true) →
      scheduleLoop phone medicine times reg =
        .ok (reg ++ times.map (mkTrigger phone medicine))
  | [], reg, _ => by simp [scheduleLoop]
  | t :: rest, reg, hall => by
      have ht : atAccepts (normalize t).data = true :=
        hall t (List.mem_cons_self t rest)
      have ih := scheduleLoop_ok phone medicine rest
        (reg ++ [mkTrigger phone medicine t])
        (fun x hx => hall x (List.mem_cons_of_mem t hx))
      simp only [scheduleLoop, ht, if_true, ih, List.map_cons]
      simp

/-- The registration call on entries the key validation accepts. -/
theorem schedule_reminder_ok (phone medicine : String) (times : List String)
    (reg : List Trigger) (hall : ∀ t ∈ times, atAccepts (normalize t).data = true) :
    schedule_reminder phone medicine times reg =
      .ok (reg ++ times.map (mkTrigger phone medicine),
        confirmMsg phone medicine times) := by
  unfold schedule_reminder
  rw [scheduleLoop_ok phone medicine times reg hall]

theorem pyEscChar_plain {c : Char} (h : reprPlain c = true) :
    pyEscChar squote c = [c] := by
  simp only [reprPlain, Bool.and_eq_true, bne_iff_ne, ne_eq,
    decide_eq_true_eq] at h
  obtain ⟨⟨⟨h1, h2⟩, h3⟩, h4⟩ := h
  have hn : c ≠ '\n' := fun hc => absurd h3 (by subst hc; decide)
  have hr : c ≠ '\r' := fun hc => absurd h3 (by subst hc; decide)
  have ht : c ≠ '\t' := fun hc => absurd h3 (by subst hc; decide)
  have hlt : ¬ c.toNat < 32 := by omega
  have h127 : (c.toNat == 127) = false := by
    simp only [beq_eq_false_iff_ne, ne_eq]
    omega
  simp [pyEscChar, h1, h2, hn, hr, ht, hlt, h127]

theorem pyEscList_plain : ∀ l : List Char, (∀ c ∈ l, reprPlain c = true) →
    pyEscList squote l = l
  | [], _ => rfl
  | c :: rest, h => by
      rw [pyEscList, pyEscChar_plain (h c (List.mem_cons_self c rest)),
        pyEscList_plain rest (fun x hx => h x (List.mem_cons_of_mem c hx))]
      rfl

/-- A string of characters `repr` renders as themselves is rendered by
`pyRepr` as the string between two single quotes. -/
theorem pyRepr_plain {s : String} (h : ∀ c ∈ s.data, reprPlain c = true) :
    (pyRepr s).data = squote :: s.data ++ [squote] := by
  have hc : squote ∉ s.data := by
    intro hm
    have h2 := h squote hm
    simp [reprPlain] at h2
  have hq : pyQuote s = squote := by
    simp [pyQuote, hc]
  simp [pyRepr, hq, pyEscList_plain s.data h]

/-- The Python rendering of a list of strings contains the `repr` of every
element. -/
theorem joinRepr_mem_repr : ∀ (times : List String) (t : String), t ∈ times →
    ∃ p q, p ++ (pyRepr t).data ++ q = (joinRepr times).data
  | [], t, htm => absurd htm (List.not_mem_nil t)
  | [x], t, htm => by
      rcases List.mem_singleton.mp htm with rfl
      exact ⟨[], [], by simp [joinRepr]⟩
  | x :: y :: ys, t, htm => by
      rcases List.mem_cons.mp htm with rfl | htm2
      · refine ⟨[], ", ".data ++ (joinRepr (y :: ys)).data, ?_⟩
        simp [joinRepr, String.data_append]
      · obtain ⟨p, q, hpq⟩ := joinRepr_mem_repr (y :: ys) t htm2
        refine ⟨(pyRepr x).data ++ ", ".data ++ p, q, ?_⟩
        simp only [joinRepr, String.data_append, List.append_assoc, hpq]

/-- The confirmation string contains the medicine name and the phone
verbatim, the `repr` of every entry of the times list, and hence every
entry itself whenever `repr` renders all its characters as themselves. -/
theorem confirmMsg_mentions (phone medicine : String) (times : List String) :
    containsSub (confirmMsg phone medicine times) medicine ∧
    containsSub (confirmMsg phone medicine times) phone ∧
    (∀ t ∈ times, containsSub (confirmMsg phone medicine times) (pyRepr t)) ∧
    (∀ t ∈ times, (∀ c ∈ t.data, reprPlain c = true) →
      containsSub (confirmMsg phone medicine times) t) := by
  have hrepr : ∀ t ∈ times,
      ∃ p q, p ++ (pyRepr t).data ++ q =
        (confirmMsg phone medicine times).data := by
    intro t htm
    obtain ⟨p, q, hpq⟩ := joinRepr_mem_repr times t htm
    refine ⟨("✅ Reminders for " ++ medicine ++ " scheduled at ").data ++
      "[".data ++ p, q ++ "]".data ++ (" for " ++ phone).data, ?_⟩
    simp only [confirmMsg, pyListRepr, String.data_append, List.append_assoc]
    rw [← hpq]
    simp
  refine ⟨?_, ?_, ?_, ?_⟩
  · exact ⟨"✅ Reminders for ".data,
      (" scheduled at " ++ pyListRepr times ++ " for " ++ phone).data,
      by simp [confirmMsg, String.data_append]⟩
  · exact ⟨("✅ Reminders for " ++ medicine ++ " scheduled at " ++
        pyListRepr times ++ " for ").data, [],
      by simp [confirmMsg, String.data_append]⟩
  · intro t htm
    exact hrepr t htm
  · intro t htm hplain
    obtain ⟨p, q, hpq⟩ := hrepr t htm
    rw [pyRepr_plain hplain] at hpq
    refine ⟨p ++ [squote], [squote] ++ q, ?_⟩
    rw [← hpq]
    simp

theorem jobBehavior_ok (g : HttpResult) : jobBehavior g = .ok () := by
  cases g with
  | response st tx =>
      rcases Bool.eq_false_or_eq_true (st == 200) with hb | hb <;>
        simp [jobBehavior, send_whatsapp, requests_post, hb]
  | exn m => rfl

/-- When every job's callback returns normally, `run_pending` completes the
cycle and invokes exactly the due jobs' callbacks, one each. -/
theorem runPendingAux_all_ok :
    ∀ (jobs : List SJob) (n : Nat), (∀ j ∈ jobs, j.callback = .ok ()) →
      runPendingAux jobs n = .ok (n + (jobs.filter (fun j => j.due)).length)
  | [], n, _ => by simp [runPendingAux]
  | j :: rest, n, h => by
      have hj := h j (List.mem_cons_self j rest)
      have hrest : ∀ x ∈ rest, x.callback = .ok () :=
        fun x hx => h x (List.mem_cons_of_mem j hx)
      cases hd : j.due with
      | false =>
          rw [show runPendingAux (j :: rest) n = runPendingAux rest n from by
              simp [runPendingAux, hd],
            runPendingAux_all_ok rest n hrest]
          simp [List.filter_cons, hd]
      | true =>
          rw [show runPendingAux (j :: rest) n =
              runPendingAux rest (n + 1) from by
              simp [runPendingAux, hd, hj],
            runPendingAux_all_ok rest (n + 1) hrest]
          simp only [List.filter_cons, hd, if_true, List.length_cons,
            Except.ok.injEq]
          omega

theorem runPending_all_ok (jobs : List SJob)
    (h : ∀ j ∈ jobs, j.callback = .ok ()) :
    runPending jobs = .ok ((jobs.filter (fun j => j.due)).length) := by
  simpa using runPendingAux_all_ok jobs 0 h

/-- When a due job's callback raises and every due job before it returns
normally, `run_pending` propagates the exception after firing exactly the due
jobs before it; the jobs after it never run (the result does not depend on
`post`). -/
theorem runPendingAux_raise (j : SJob) (post : List SJob) (msg : String)
    (hdue : j.due = true) (hcb : j.callback = .error msg) :
    ∀ (pre : List SJob) (n : Nat),
      (∀ k ∈ pre, k.due = true → k.callback = .ok ()) →
      runPendingAux (pre ++ j :: post) n =
        .error (n + (pre.filter (fun k => k.due)).length, msg) := by
  intro pre
  induction pre with
  | nil => intro n _; simp [runPendingAux, hdue, hcb]
  | cons k pre ih =>
    intro n hpre
    have hrest : ∀ x ∈ pre, x.due = true → x.callback = .ok () :=
      fun x hx => hpre x (List.mem_cons_of_mem k hx)
    cases hk : k.due with
    | false =>
        rw [List.cons_append,
          show runPendingAux (k :: (pre ++ j :: post)) n =
            runPendingAux (pre ++ j :: post) n from by
              simp [runPendingAux, hk],
          ih n hrest]
        simp [List.filter_cons, hk]
    | true =>
        have hko := hpre k (List.mem_cons_self k pre) hk
        rw [List.cons_append,
          show runPendingAux (k :: (pre ++ j :: post)) n =
            runPendingAux (pre ++ j :: post) (n + 1) from by
              simp [runPendingAux, hk, hko],
          ih (n + 1) hrest]
        simp only [List.filter_cons, hk, if_true, List.length_cons,
          Except.error.injEq, Prod.mk.injEq]
        exact ⟨by omega, trivial⟩

theorem splitOnChar_no_sep (sep : Char) :
    ∀ l : List Char, (∀ c ∈ l, c ≠ sep) → splitOnChar sep l = [l]
  | [], _ => rfl
  | c :: rest, h => by
      have hc : c ≠ sep := h c (List.mem_cons_self c rest)
      have ih := splitOnChar_no_sep sep rest
        (fun x hx => h x (List.mem_cons_of_mem c hx))
      simp [splitOnChar, hc, ih]

theorem splitOnChar_append (sep : Char) :
    ∀ (l1 l2 : List Char), (∀ c ∈ l1, c ≠ sep) →
      splitOnChar sep (l1 ++ sep :: l2) = l1 :: splitOnChar sep l2
  | [], l2, _ => by simp [splitOnChar]
  | c :: l1, l2, h => by
      have hc : c ≠ sep := h c (List.mem_cons_self c l1)
      have ih := splitOnChar_append sep l1 l2
        (fun x hx => h x (List.mem_cons_of_mem c hx))
      simp [splitOnChar, hc, ih]

theorem splitOnChar_ne_nil (sep : Char) : ∀ l : List Char, splitOnChar sep l ≠ []
  | [] => by simp [splitOnChar]
  | c :: rest => by
      by_cases hc : c = sep
      · simp [splitOnChar, hc]
      · have := splitOnChar_ne_nil sep rest
        simp only [splitOnChar, hc, if_false]
        cases hsp : splitOnChar sep rest with
        | nil => exact absurd hsp this
        | cons f fs => simp

theorem splitOnChar_length (sep : Char) :
    ∀ l : List Char, (splitOnChar sep l).length = l.count sep + 1
  | [] => rfl
  | c :: rest => by
      have ih := splitOnChar_length sep rest
      by_cases hc : c = sep
      · subst hc
        simp [splitOnChar, ih, List.count_cons]
      · simp only [splitOnChar, hc, if_false]
        cases hsp : splitOnChar sep rest with
        | nil => exact absurd hsp (splitOnChar_ne_nil sep rest)
        | cons f fs =>
            rw [hsp] at ih
            simp only [List.length_cons] at ih ⊢
            rw [List.count_cons]
            simp [hc, ih]

theorem splitFirstEq_key (v : List Char) :
    ∀ k : List Char, (∀ c ∈ k, c ≠ '=') → splitFirstEq (k ++ '=' :: v) = (k, v)
  | [], _ => by simp [splitFirstEq]
  | c :: k, h => by
      have hc : c ≠ '=' := h c (List.mem_cons_self c k)
      have ih := splitFirstEq_key v k
        (fun x hx => h x (List.mem_cons_of_mem c hx))
      simp [splitFirstEq, hc, ih]

theorem no_amp_mem {s : String} (h : noAmp s = true) : ∀ c ∈ s.data, c ≠ '&' := by
  intro c hc
  have h2 := (List.all_eq_true.mp h) c hc
  simpa [bne_iff_ne] using h2

/-! ## Claim theorems -/

set_option maxHeartbeats 4000000 in
/-- C3: for every input string in valid 12-hour form `h:mm AM/PM` — hour
1..12, written unpadded or zero-padded, minutes zero-padded, either meridiem
in either rendering covered by `render12` — the normalizer returns the
equivalent zero-padded 24-hour `HH:MM:SS` string; in particular
`normalize "10:30 PM" = "22:30:00"` and `normalize "9:05 AM" = "09:05:00"`. -/
theorem c3_normalize_valid12 :
    (∀ h, h < 12 → ∀ m, m < 60 → ∀ pad pm : Bool,
      normalize (render12 (h + 1) m pad pm) = fmtHMS (to24 (h + 1) pm) m) ∧
    normalize "10:30 PM" = "22:30:00" ∧ normalize "9:05 AM" = "09:05:00" := by
  decide

/-- C3 witness: the theorem applied at `"10:30 PM"` (hour 10, minute 30,
unpadded, PM). -/
theorem c3_normalize_valid12_witness :
    normalize (render12 10 30 false true) = fmtHMS (to24 10 true) 30 :=
  c3_normalize_valid12.1 9 (by decide) 30 (by decide) false true

/-- C4: whenever the 12-hour parse fails — in particular on every string of
`HH:MM:SS` shape and on unparseable strings — the normalizer returns the
original raw input unchanged (not the whitespace-trimmed copy used for the
parse attempt); e.g. `normalize "14:00:00" = "14:00:00"`, and a padded
unparseable input keeps its padding. -/
theorem c4_normalize_fallback_raw :
    (∀ t : String, parse12 (pyStrip t.data) = none → normalize t = t) ∧
    (∀ t : String, isHHMMSS t = true → normalize t = t) ∧
    normalize "14:00:00" = "14:00:00" ∧
    normalize "not-a-time" = "not-a-time" ∧
    normalize "  not-a-time  " = "  not-a-time  " := by
  refine ⟨?_, ?_, by decide, by decide, by decide⟩
  · intro t h
    simp [normalize, h]
  · intro t ht
    unfold isHHMMSS at ht
    split at ht
    case h_2 => exact absurd ht (by simp)
    case h_1 a b c d e f g h2 heq =>
      simp only [Bool.and_eq_true, beq_iff_eq] at ht
      obtain ⟨⟨⟨⟨⟨⟨⟨ha, hb⟩, hc⟩, hd2⟩, he⟩, hf⟩, hg⟩, hh2⟩ := ht
      subst hc
      subst hf
      unfold normalize
      rw [heq, pyStrip_hhmmss a b d e g h2 ha hh2,
        parse12_hhmmss_none a b d e g h2 ha hb hd2 he hg hh2]

/-- C4 witness: the fallback applied at `"not-a-time"`, whose 12-hour parse
fails. -/
theorem c4_normalize_fallback_raw_witness :
    normalize "not-a-time" = "not-a-time" :=
  c4_normalize_fallback_raw.1 "not-a-time" (by decide)

/-- C5: the notification sender `send_whatsapp` never raises to its caller:
on HTTP 200 the outcome succeeded; on any other status the outcome failed
with the response body in the detail; on a transport-level exception the
outcome failed with the exception message in the detail. -/
theorem c5_send_whatsapp_contract :
    (∀ g : HttpResult, ∃ o : DispatchOutcome, send_whatsapp g = .ok o) ∧
    (∀ tx : String, send_whatsapp (.response 200 tx) =
      .ok ⟨true, "✅ WhatsApp message sent!"⟩) ∧
    (∀ (st : Nat) (tx : String), st ≠ 200 →
      send_whatsapp (.response st tx) = .ok ⟨false, "❌ Failed: " ++ tx⟩) ∧
    (∀ m : String, send_whatsapp (.exn m) = .ok ⟨false, "❌ Error: " ++ m⟩) := by
  refine ⟨?_, ?_, ?_, ?_⟩
  · intro g
    cases g with
    | response st tx =>
        rcases Bool.eq_false_or_eq_true (st == 200) with h | h
        · exact ⟨⟨true, "✅ WhatsApp message sent!"⟩,
            by simp [send_whatsapp, requests_post, h]⟩
        · exact ⟨⟨false, "❌ Failed: " ++ tx⟩,
            by simp [send_whatsapp, requests_post, h]⟩
    | exn m => exact ⟨⟨false, "❌ Error: " ++ m⟩, rfl⟩
  · intro tx; rfl
  · intro st tx h
    simp [send_whatsapp, requests_post, h]
  · intro m; rfl

/-- C5 witness: a gateway returning HTTP 500 yields a failed outcome carrying
the response body, without raising. -/
theorem c5_send_whatsapp_contract_witness :
    send_whatsapp (.response 500 "server error") =
      .ok ⟨false, "❌ Failed: " ++ "server error"⟩ :=
  c5_send_whatsapp_contract.2.2.1 500 "server error" (by decide)

/-- C6 counterexample: the claim that the confirmation contains every time
of a fully successful registration is false.  The entry `"9:05 AM\n"`
registers successfully — its stripped form parses, so it is scheduled at
`09:05:00` — but the confirmation interpolates the times list through
Python `repr`, which escapes the newline, so the returned string contains
the escaped `repr` of the label and not the label itself. -/
theorem c6_counterexample :
    atAccepts (normalize "9:05 AM\n").data = true ∧
    schedule_reminder "+1555" "Aspirin" ["9:05 AM\n"] [] =
      .ok ([mkTrigger "+1555" "Aspirin" "9:05 AM\n"],
        confirmMsg "+1555" "Aspirin" ["9:05 AM\n"]) ∧
    decide (containsSub (confirmMsg "+1555" "Aspirin" ["9:05 AM\n"])
      (pyRepr "9:05 AM\n")) = true ∧
    decide (containsSub (confirmMsg "+1555" "Aspirin" ["9:05 AM\n"])
      "9:05 AM\n") = false :=
  ⟨rfl, rfl, by decide, by decide⟩

/-- C6 (amended): when every entry of `times` passes the registry's key
validation, `schedule_reminder` creates exactly one trigger per entry, in
input order, keyed by the entry's normalized time and bound to the given
phone and medicine, and returns a confirmation containing the medicine name
and the phone verbatim and the Python `repr` of every time — hence each
time itself whenever it contains no single quote, backslash, or
non-printable character, as every well-formed time label does. -/
theorem c6_amended_register_triggers (phone medicine : String)
    (times : List String) (reg : List Trigger)
    (hall : ∀ t ∈ times, atAccepts (normalize t).data = true) :
    schedule_reminder phone medicine times reg =
      .ok (reg ++ times.map (mkTrigger phone medicine),
        confirmMsg phone medicine times) ∧
    (times.map (mkTrigger phone medicine)).length = times.length ∧
    (∀ t ∈ times, mkTrigger phone medicine t =
      { time_of_day := normalize t, phone := phone, medicine := medicine,
        original_label := t }) ∧
    containsSub (confirmMsg phone medicine times) medicine ∧
    containsSub (confirmMsg phone medicine times) phone ∧
    (∀ t ∈ times, containsSub (confirmMsg phone medicine times) (pyRepr t)) ∧
    (∀ t ∈ times, (∀ c ∈ t.data, reprPlain c = true) →
      containsSub (confirmMsg phone medicine times) t) := by
  obtain ⟨hm, hp, hr, ht⟩ := confirmMsg_mentions phone medicine times
  exact ⟨schedule_reminder_ok phone medicine times reg hall,
    by simp, fun t _ => rfl, hm, hp, hr, ht⟩

/-- C6 witness: the spec's example — registering Aspirin at 09:00:00 and
14:00:00 for +1555 on an empty registry creates exactly the two triggers,
and the confirmation mentions the medicine, the phone and both times
verbatim. -/
theorem c6_amended_register_triggers_witness :
    schedule_reminder "+1555" "Aspirin" ["09:00:00", "14:00:00"] [] =
      .ok ([mkTrigger "+1555" "Aspirin" "09:00:00",
            mkTrigger "+1555" "Aspirin" "14:00:00"],
        confirmMsg "+1555" "Aspirin" ["09:00:00", "14:00:00"]) ∧
    containsSub (confirmMsg "+1555" "Aspirin" ["09:00:00", "14:00:00"])
      "Aspirin" ∧
    containsSub (confirmMsg "+1555" "Aspirin" ["09:00:00", "14:00:00"])
      "+1555" ∧
    containsSub (confirmMsg "+1555" "Aspirin" ["09:00:00", "14:00:00"])
      "09:00:00" ∧
    containsSub (confirmMsg "+1555" "Aspirin" ["09:00:00", "14:00:00"])
      "14:00:00" := by
  have h := c6_amended_register_triggers "+1555" "Aspirin"
    ["09:00:00", "14:00:00"] [] (by decide)
  exact ⟨by simpa using h.1, h.2.2.2.1, h.2.2.2.2.1,
    h.2.2.2.2.2.2 "09:00:00" (by simp) (by decide),
    h.2.2.2.2.2.2 "14:00:00" (by simp) (by decide)⟩

/-- C7: when a registered trigger fires, `job` invokes the notification
sender exactly once, with the trigger's phone and a message containing the
medicine name and the trigger's original (non-normalized) time label; for
the label `"10:30 PM"` the message contains `"10:30 PM"` and does not
contain its normalization `"22:30:00"`. -/
theorem c7_fire_uses_original_label :
    (∀ trig : Trigger, fireRequests trig =
      [⟨trig.phone, reminderMessage trig.medicine trig.original_label⟩]) ∧
    (∀ phone medicine t : String,
      fireRequests (mkTrigger phone medicine t) =
        [⟨phone, reminderMessage medicine t⟩] ∧
      (mkTrigger phone medicine t).original_label = t ∧
      (fireRequests (mkTrigger phone medicine t)).length = 1 ∧
      containsSub (reminderMessage medicine t) medicine ∧
      containsSub (reminderMessage medicine t) t) ∧
    decide (containsSub (reminderMessage "Aspirin" "10:30 PM") "10:30 PM")
      = true ∧
    decide (containsSub (reminderMessage "Aspirin" "10:30 PM") "22:30:00")
      = false ∧
    normalize "10:30 PM" = "22:30:00" := by
  refine ⟨fun trig => rfl,
    fun phone medicine t => ⟨rfl, rfl, rfl, ?_, ?_⟩, by decide, by decide,
    by decide⟩
  · exact ⟨"💊 Reminder: It's time to take your medicine '".data,
      ("' at " ++ t).data, by simp [reminderMessage, String.data_append]⟩
  · exact ⟨("💊 Reminder: It's time to take your medicine '" ++ medicine ++
      "' at ").data, [], by simp [reminderMessage, String.data_append]⟩

/-- C8: registering an empty times list is accepted — no error, a
confirmation string mentioning the medicine and phone is still returned —
and creates zero triggers: the registry is returned unchanged, so nothing
can ever fire for that registration. -/
theorem c8_empty_times_accepted (phone medicine : String)
    (reg : List Trigger) :
    schedule_reminder phone medicine [] reg =
      .ok (reg, confirmMsg phone medicine []) ∧
    containsSub (confirmMsg phone medicine []) medicine ∧
    containsSub (confirmMsg phone medicine []) phone := by
  obtain ⟨hm, hp, _⟩ := confirmMsg_mentions phone medicine []
  exact ⟨rfl, hm, hp⟩

/-- C9: registration is purely additive — two calls with identical
arguments append two independent, identical triggers (no deduplication), so
the registry's count of that trigger grows by exactly two — and both
duplicates fire: in the poll cycle whose clock matches their shared time of
day, `run_pending` completes without error, invoking the callback of every
due job exactly once, and the duplicated registry has exactly two more due
jobs than the registry had before the two registrations. -/
theorem c9_register_no_dedup (phone medicine t : String) (reg : List Trigger)
    (h : atAccepts (normalize t).data = true) :
    ∃ reg1 reg2 : List Trigger, ∃ conf1 conf2 : String,
      schedule_reminder phone medicine [t] reg = .ok (reg1, conf1) ∧
      schedule_reminder phone medicine [t] reg1 = .ok (reg2, conf2) ∧
      reg2 = reg ++ [mkTrigger phone medicine t, mkTrigger phone medicine t] ∧
      reg2.count (mkTrigger phone medicine t) =
        reg.count (mkTrigger phone medicine t) + 2 ∧
      ∀ g : HttpResult,
        runPending (reg2.map (triggerJob (normalize t) g)) =
          .ok (((reg2.map (triggerJob (normalize t) g)).filter
            (fun j => j.due)).length) ∧
        ((reg2.map (triggerJob (normalize t) g)).filter
            (fun j => j.due)).length =
          ((reg.map (triggerJob (normalize t) g)).filter
            (fun j => j.due)).length + 2 := by
  have hall : ∀ x ∈ [t], atAccepts (normalize x).data = true := by
    intro x hx; rcases List.mem_singleton.mp hx with rfl; exact h
  refine ⟨reg ++ [mkTrigger phone medicine t],
    reg ++ [mkTrigger phone medicine t, mkTrigger phone medicine t],
    confirmMsg phone medicine [t], confirmMsg phone medicine [t],
    ?_, ?_, rfl, ?_, ?_⟩
  · simpa using schedule_reminder_ok phone medicine [t] reg hall
  · have h2 := schedule_reminder_ok phone medicine [t]
      (reg ++ [mkTrigger phone medicine t]) hall
    simpa using h2
  · simp [List.count_append]
  · intro g
    constructor
    · apply runPending_all_ok
      intro j hj
      simp only [List.mem_map] at hj
      obtain ⟨trig, _, rfl⟩ := hj
      exact jobBehavior_ok g
    · simp [List.filter_append, triggerJob, mkTrigger]

/-- C9 witness: two identical registrations of Aspirin at 09:00:00 on an
empty registry yield two identical triggers, and the matching poll cycle
dispatches both of them. -/
theorem c9_register_no_dedup_witness :
    ∃ reg1 reg2 : List Trigger, ∃ conf1 conf2 : String,
      schedule_reminder "+1555" "Aspirin" ["09:00:00"] [] =
        .ok (reg1, conf1) ∧
      schedule_reminder "+1555" "Aspirin" ["09:00:00"] reg1 =
        .ok (reg2, conf2) ∧
      reg2 = [] ++ [mkTrigger "+1555" "Aspirin" "09:00:00",
        mkTrigger "+1555" "Aspirin" "09:00:00"] ∧
      reg2.count (mkTrigger "+1555" "Aspirin" "09:00:00") =
        List.count (mkTrigger "+1555" "Aspirin" "09:00:00") [] + 2 ∧
      ∀ g : HttpResult,
        runPending (reg2.map (triggerJob (normalize "09:00:00") g)) =
          .ok (((reg2.map (triggerJob (normalize "09:00:00") g)).filter
            (fun j => j.due)).length) ∧
        ((reg2.map (triggerJob (normalize "09:00:00") g)).filter
            (fun j => j.due)).length =
          ((([] : List Trigger).map
            (triggerJob (normalize "09:00:00") g)).filter
            (fun j => j.due)).length + 2 :=
  c9_register_no_dedup "+1555" "Aspirin" "09:00:00" [] (by decide)

/-- C1 counterexample: the claim "no error is raised regardless of whether
the entry is parseable… failure is deferred to the Dispatch Loop" is false.
The entry `"not-a-time"` falls through the normalizer unchanged, and then
`schedule.every().day.at("not-a-time")` raises `ScheduleValueError` out of
`schedule_reminder` at registration time: nothing is registered and the
failure is not deferred. -/
theorem c1_counterexample :
    normalize "not-a-time" = "not-a-time" ∧
    atAccepts ("not-a-time").data = false ∧
    schedule_reminder "+1555" "Aspirin" ["not-a-time"] [] =
      Except.error ([], scheduleValueError) :=
  ⟨rfl, rfl, rfl⟩

/-- C1 (amended): the normalization step itself never raises — an
unparseable entry falls back to the raw string, which becomes the trigger
key whenever it is itself a valid `HH:MM(:SS)` daily key — but registration
is not error-free: `Job.at` raises `ScheduleValueError` out of
`schedule_reminder` for any entry whose (possibly raw) key fails the daily
key validation. -/
theorem c1_amended_registration (phone medicine t : String)
    (reg : List Trigger) :
    (atAccepts (normalize t).data = true →
      schedule_reminder phone medicine [t] reg =
        .ok (reg ++ [mkTrigger phone medicine t],
          confirmMsg phone medicine [t])) ∧
    (atAccepts (normalize t).data = false →
      schedule_reminder phone medicine [t] reg =
        .error (reg, scheduleValueError)) := by
  constructor
  · intro h
    have hall : ∀ x ∈ [t], atAccepts (normalize x).data = true := by
      intro x hx; rcases List.mem_singleton.mp hx with rfl; exact h
    simpa using schedule_reminder_ok phone medicine [t] reg hall
  · intro h
    simp [schedule_reminder, scheduleLoop, h]

/-- C1 witness: a raw `HH:MM:SS` entry is registered as-is with the raw
string as key, while an unparseable entry raises at registration. -/
theorem c1_amended_registration_witness :
    schedule_reminder "+1555" "Aspirin" ["14:00:00"] ([] : List Trigger) =
      .ok ([] ++ [mkTrigger "+1555" "Aspirin" "14:00:00"],
        confirmMsg "+1555" "Aspirin" ["14:00:00"]) ∧
    schedule_reminder "+1555" "Aspirin" ["not-a-time"] ([] : List Trigger) =
      .error ([], scheduleValueError) :=
  ⟨(c1_amended_registration "+1555" "Aspirin" "14:00:00" []).1 (by decide),
   (c1_amended_registration "+1555" "Aspirin" "not-a-time" []).2 (by decide)⟩

/-- C2 counterexample: the claim that a raising callback cannot terminate
the dispatch loop nor prevent other triggers from firing is false.  With two
due triggers per cycle — the first raising, the second healthy — the loop
dies in cycle 0 with zero callbacks fired: the second trigger of the cycle
never runs and no later poll cycle executes, despite five cycles of
observation. -/
theorem c2_counterexample :
    (poisonCycles 0).length = 2 ∧
    ((poisonCycles 0).filter (fun j => j.due)).length = 2 ∧
    runScheduleFrom poisonCycles 0 5 = .error (0, 0, "boom") :=
  ⟨rfl, rfl, rfl⟩

/-- C2 (amended): `run_schedule` and `schedule.run_pending` contain no
exception handling, so a raising callback propagates: the due triggers after
it in that poll cycle do not fire and the loop terminates, running no further
cycles.  The only callback this program registers (`job`, which calls the
fully contained `send_whatsapp`) never raises, so the loop is never actually
killed by its own triggers. -/
theorem c2_amended_propagation :
    (∀ (cycles : Nat → List SJob) (i fuel fired : Nat) (msg : String),
      runPending (cycles i) = .error (fired, msg) →
      runScheduleFrom cycles i (fuel + 1) = .error (i, fired, msg)) ∧
    (∀ (pre : List SJob) (j : SJob) (post : List SJob) (msg : String),
      (∀ k ∈ pre, k.due = true → k.callback = .ok ()) →
      j.due = true → j.callback = .error msg →
      runPending (pre ++ j :: post) =
        .error ((pre.filter (fun k => k.due)).length, msg)) ∧
    (∀ g : HttpResult, jobBehavior g = .ok ()) := by
  refine ⟨?_, ?_, ?_⟩
  · intro cycles i fuel fired msg h
    simp [runScheduleFrom, h]
  · intro pre j post msg hpre hdue hcb
    simpa using runPendingAux_raise j post msg hdue hcb pre 0 hpre
  · intro g
    cases g with
    | response st tx =>
        rcases Bool.eq_false_or_eq_true (st == 200) with h | h <;>
          simp [jobBehavior, send_whatsapp, requests_post, h]
    | exn m => rfl

/-- C2 witness: a raising first callback aborts `run_pending` before the
second due job, and the loop stops at that cycle. -/
theorem c2_amended_propagation_witness :
    runPending [⟨true, Except.error "boom"⟩, ⟨true, Except.ok ()⟩] =
      .error (0, "boom") ∧
    runScheduleFrom poisonCycles 0 4 = .error (0, 0, "boom") := by
  constructor
  · have h := c2_amended_propagation.2.1 [] ⟨true, Except.error "boom"⟩
      [⟨true, Except.ok ()⟩] "boom" (by intro k hk; cases hk) rfl rfl
    simpa using h
  · exact c2_amended_propagation.1 poisonCycles 0 3 0 "boom" rfl

/-- C10 counterexample: the claim that any `=` in the phone or message is
interpreted as a field delimiter, altering or truncating the request's
fields, is false: an `=` inside a value is kept as part of that value by
standard form parsing (fields split on `&`, key before the first `=`), so a
message containing `=` but no `&` still parses to exactly the three intended
fields. -/
theorem c10_counterexample :
    containsSub "take 1=2 pills" "=" ∧
    parseForm (buildPayload "TOK" "+1555" "take 1=2 pills") =
      [("token", "TOK"), ("to", "+1555"), ("body", "take 1=2 pills")] :=
  ⟨by decide, by decide⟩

/-- C10 (amended): the sender interpolates the token, phone and message into
the form body verbatim with no escaping; form parsing of the result yields
the three intended fields exactly when the interpolated parts contain no
`&`, and every `&` in them adds one field — injecting or truncating — as the
two concrete payloads show.  An `=` alone, landing in value position, does
not move field boundaries. -/
theorem c10_amended_raw_payload :
    (∀ token phone message : String,
      (buildPayload token phone message).data =
        "token=".data ++ token.data ++ "&to=".data ++ phone.data ++
          "&body=".data ++ message.data) ∧
    (∀ token phone message : String, noAmp token = true → noAmp phone = true →
      noAmp message = true →
      parseForm (buildPayload token phone message) =
        [("token", token), ("to", phone), ("body", message)]) ∧
    (∀ token phone message : String,
      (parseForm (buildPayload token phone message)).length =
        1 + countAmp (buildPayload token phone message)) ∧
    parseForm (buildPayload "TOK" "+1555" "hi&body=injected") =
      [("token", "TOK"), ("to", "+1555"), ("body", "hi"),
        ("body", "injected")] ∧
    parseForm (buildPayload "TOK" "+15&55" "ok") =
      [("token", "TOK"), ("to", "+15"), ("55", ""), ("body", "ok")] := by
  refine ⟨?_, ?_, ?_, by decide, by decide⟩
  · intro token phone message
    simp [buildPayload, String.data_append]
  · intro token phone message htok hpho hmsg
    have hsplit : (buildPayload token phone message).data =
        ("token=".data ++ token.data) ++ '&' ::
          (("to=".data ++ phone.data) ++ '&' ::
            ("body=".data ++ message.data)) := by
      simp [buildPayload, String.data_append]
    have hA : ∀ c ∈ "token=".data ++ token.data, c ≠ '&' :=
      List.forall_mem_append.mpr ⟨no_amp_mem (by decide), no_amp_mem htok⟩
    have hB : ∀ c ∈ "to=".data ++ phone.data, c ≠ '&' :=
      List.forall_mem_append.mpr ⟨no_amp_mem (by decide), no_amp_mem hpho⟩
    have hC : ∀ c ∈ "body=".data ++ message.data, c ≠ '&' :=
      List.forall_mem_append.mpr ⟨no_amp_mem (by decide), no_amp_mem hmsg⟩
    unfold parseForm
    rw [hsplit, splitOnChar_append '&' _ _ hA, splitOnChar_append '&' _ _ hB,
      splitOnChar_no_sep '&' _ hC]
    simp [splitFirstEq]
  · intro token phone message
    unfold parseForm
    rw [List.length_map, splitOnChar_length]
    simp [countAmp, Nat.add_comm]

/-- C10 witness: a benign payload — no `&` in any interpolated part —
parses back to exactly the three intended fields. -/
theorem c10_amended_raw_payload_witness :
    parseForm (buildPayload "TOK" "+1555" "hello world") =
      [("token", "TOK"), ("to", "+1555"), ("body", "hello world")] :=
  c10_amended_raw_payload.2.1 "TOK" "+1555" "hello world"
    (by decide) (by decide) (by decide)

end HealthCareReminder
